import Mathlib

/-!
# Verification of the go-keycloak request/authentication pipeline

Shallow embedding of `src/keycloak.go` (package `keycloak`): the client
configuration, the request builder (`Client.newRequest`), and the executor
(`Client.do`, embedded here as `clientDo` because `do` is a Lean keyword).

Modelling conventions:
* Go errors are opaque values carrying a message (`GoErr`).
* Go byte slices / request bodies are Lean `String`s.
* `interface{}` request bodies are modelled by the JSON-like value type
  `JVal` (integers stand in for Go numbers).
* The standard-library pieces the code calls are embedded explicitly:
  `encoding/json` encoding with the `SetEscapeHTML` flag (`encJson`),
  a JSON parser for `json.Unmarshal` / `json.Decoder.Decode`
  (`jsonParseFull` / `jsonParsePrefix`), `io.Copy` (`ioCopy`),
  `ioutil.ReadAll` (reading an `HttpResponseBody`).
* Calls into code of this repository that is outside `src/keycloak.go`
  (`Authentication.GetOIDCToken`) are abstracted as a function parameter
  `fetch`; the structs it involves (`AccessGrantRequest`, `OIDCToken`) are
  modelled from the spec (their fields are fixed by their uses in
  `src/keycloak.go` and the spec's data model).
* `url.URL.Parse` (relative URL resolution) is abstracted as a function
  parameter `resolve`, since its semantics live in Go's standard library
  and no claim depends on them.
-/

/-- An opaque Go `error` value, identified by its message. -/
inductive GoErr where
  | mk (msg : String)
deriving DecidableEq, Repr

/-- A Go `context.Context` as seen by `Client.do`: whether `ctx.Done()` is
already closed, and the value `ctx.Err()` reports in that case. -/
structure Ctx where
  done : Bool
  ctxErr : GoErr
deriving DecidableEq, Repr

/-- The readable side of an HTTP response body: the bytes that can be read
before the stream either ends (`readErr = none`) or fails (`readErr = some e`). -/
structure HttpResponseBody where
  data : String
  readErr : Option GoErr
deriving DecidableEq, Repr

/-- An `*http.Response` as far as `Client.do` inspects it. -/
structure HttpResponse where
  statusCode : Nat
  body : HttpResponseBody
deriving DecidableEq, Repr

/-- `Response` — the Keycloak response wrapper (src/keycloak.go:28). -/
structure Response where
  response : HttpResponse
deriving DecidableEq, Repr

/-- `ErrorResponse` — the error response from Keycloak (src/keycloak.go:33):
the raw response plus the `Message` field tagged `error_description`. -/
structure ErrorResponse where
  response : HttpResponse
  message : String
deriving DecidableEq, Repr

/-- An `io.Writer` byte sink: bytes accepted so far, plus an optional error
the sink raises when written to (modelling a failing writer). -/
structure GoWriter where
  written : String
  writeErr : Option GoErr
deriving DecidableEq, Repr

/-- A JSON-like Go value (the `interface{}` bodies and decode results).
Numbers are modelled as integers. -/
inductive JVal where
  | jnull
  | jbool (b : Bool)
  | jnum (n : Int)
  | jstr (s : String)
  | jarr (xs : List JVal)
  | jobj (fs : List (String × JVal))

/-- The `v interface{}` argument of `Client.do`: absent, an `io.Writer`
sink, or a decode target currently holding a value. -/
inductive Target where
  | none
  | writer (w : GoWriter)
  | value (t : JVal)

/-- The `error` result of `Client.do`: either the `*ErrorResponse` built on
status ≥ 300, or a plain Go error (context error, decode error). -/
inductive DoErr where
  | upstream (e : ErrorResponse)
  | goError (e : GoErr)

/-- Outcome of `Client.do`: a normal return `(resp?, err?)` together with
the final state of the caller's target, or a runtime panic (nil-pointer
dereference). -/
inductive DoResult where
  | ret (resp : Option Response) (err : Option DoErr) (v : Target)
  | panic

/-- The `resp` component of a normal return. -/
def DoResult.respOf : DoResult → Option Response
  | .ret r _ _ => r
  | .panic => Option.none

/-- The `err` component of a normal return. -/
def DoResult.errOf : DoResult → Option DoErr
  | .ret _ e _ => e
  | .panic => Option.none

/-! ## Go `encoding/json` serialization (with the `SetEscapeHTML` flag) -/

/-- Hex digit characters, as used by the `\u00XX` escapes of Go's JSON
encoder. -/
def hexDigitChar (n : Nat) : Char :=
  "0123456789abcdef".data.getD (n % 16) '0'

/-- The six-character `\u00XX` escape Go's JSON encoder emits for a
character below U+0100. -/
def escU (c : Char) : List Char :=
  ['\\', 'u', '0', '0', hexDigitChar (c.toNat / 16 % 16), hexDigitChar (c.toNat % 16)]

/-- How Go's `encoding/json` encoder emits one character of a string value,
as a function of the `SetEscapeHTML` flag: quote and backslash are escaped,
the characters `<`, `>`, `&` get their six-character `u`-escapes (via
`escU`) only when `escapeHTML` is true, control characters get named or
`\u00XX` escapes, and every other character is emitted literally. -/
def goEscChar (escapeHTML : Bool) (c : Char) : List Char :=
  if c = '\x22' then ['\\', '\x22']
  else if c = '\\' then ['\\', '\\']
  else if escapeHTML ∧ (c = '<' ∨ c = '>' ∨ c = '&') then escU c
  else if c = '\n' then ['\\', 'n']
  else if c = '\r' then ['\\', 'r']
  else if c = '\t' then ['\\', 't']
  else if c.toNat < 32 then escU c
  else [c]

/-- Go JSON string-literal encoding: quote, escaped characters, quote. -/
def encString (escapeHTML : Bool) (s : String) : List Char :=
  '\x22' :: (s.data.flatMap (goEscChar escapeHTML)) ++ ['\x22']

/-- Decimal digit characters. -/
def decDigitChar (n : Nat) : Char :=
  "0123456789".data.getD (n % 10) '0'

/-- Decimal digits of a natural number, most significant first. -/
def natChars (n : Nat) : List Char :=
  if _h : n < 10 then [decDigitChar n]
  else natChars (n / 10) ++ [decDigitChar (n % 10)]
decreasing_by exact Nat.div_lt_self (by omega) (by omega)

/-- Decimal rendering of the integers standing in for Go JSON numbers. -/
def intChars (i : Int) : List Char :=
  if i < 0 then '-' :: natChars i.natAbs else natChars i.natAbs

mutual
/-- Go `encoding/json` serialization of a `JVal`, parameterized by the
encoder's `SetEscapeHTML` flag (struct fields / map entries are emitted in
the order they appear in the value). -/
def encJson (escapeHTML : Bool) : JVal → List Char
  | .jnull => ['n', 'u', 'l', 'l']
  | .jbool true => ['t', 'r', 'u', 'e']
  | .jbool false => ['f', 'a', 'l', 's', 'e']
  | .jnum n => intChars n
  | .jstr s => encString escapeHTML s
  | .jarr xs => '[' :: (encArr escapeHTML xs ++ [']'])
  | .jobj fs => '\x7b' :: (encObj escapeHTML fs ++ ['\x7d'])

/-- Comma-separated serialization of array elements. -/
def encArr (escapeHTML : Bool) : List JVal → List Char
  | [] => []
  | [x] => encJson escapeHTML x
  | x :: y :: xs => encJson escapeHTML x ++ ',' :: encArr escapeHTML (y :: xs)

/-- Comma-separated serialization of object fields. -/
def encObj (escapeHTML : Bool) : List (String × JVal) → List Char
  | [] => []
  | [(k, v)] => encString escapeHTML k ++ ':' :: encJson escapeHTML v
  | (k, v) :: f :: fs =>
      encString escapeHTML k ++ ':' :: encJson escapeHTML v ++ ',' :: encObj escapeHTML (f :: fs)
end

/-! ## JSON parsing (modelling `json.Unmarshal` and `json.Decoder.Decode`) -/

/-- Skip JSON whitespace. -/
def skipWs : List Char → List Char
  | c :: cs => if c = ' ' ∨ c = '\n' ∨ c = '\t' ∨ c = '\r' then skipWs cs else c :: cs
  | [] => []

/-- Numeric value of a hex digit character. -/
def hexVal (c : Char) : Option Nat :=
  if 48 ≤ c.toNat ∧ c.toNat ≤ 57 then some (c.toNat - 48)
  else if 97 ≤ c.toNat ∧ c.toNat ≤ 102 then some (c.toNat - 87)
  else if 65 ≤ c.toNat ∧ c.toNat ≤ 70 then some (c.toNat - 55)
  else none

/-- Decoding of a single-character JSON string escape. -/
def unescapeChar (c : Char) : Option Char :=
  if c = '\x22' then some '\x22'
  else if c = '\\' then some '\\'
  else if c = '/' then some '/'
  else if c = 'n' then some '\n'
  else if c = 't' then some '\t'
  else if c = 'r' then some '\r'
  else if c = 'b' then some (Char.ofNat 8)
  else if c = 'f' then some (Char.ofNat 12)
  else none

/-- Parse the remainder of a JSON string literal (after the opening quote):
the decoded characters and the unconsumed input. -/
def parseStringBody (fuel : Nat) (cs : List Char) : Option (List Char × List Char) :=
  match fuel, cs with
  | 0, _ => none
  | _, [] => none
  | fuel + 1, c :: cs =>
    if c = '\x22' then some ([], cs)
    else if c = '\\' then
      match cs with
      | [] => none
      | e :: cs =>
        if e = 'u' then
          match cs with
          | a :: b :: d :: f :: cs =>
            match hexVal a, hexVal b, hexVal d, hexVal f with
            | some va, some vb, some vd, some vf =>
              match parseStringBody fuel cs with
              | some (out, rest) =>
                  some (Char.ofNat (((va * 16 + vb) * 16 + vd) * 16 + vf) :: out, rest)
              | none => none
            | _, _, _, _ => none
          | _ => none
        else
          match unescapeChar e with
          | some u =>
            match parseStringBody fuel cs with
            | some (out, rest) => some (u :: out, rest)
            | none => none
          | none => none
    else
      match parseStringBody fuel cs with
      | some (out, rest) => some (c :: out, rest)
      | none => none

/-- Parse a nonempty run of decimal digits into a natural number. -/
def parseNat (cs : List Char) : Option (Nat × List Char) :=
  let ds := cs.takeWhile (fun c => decide (48 ≤ c.toNat ∧ c.toNat ≤ 57))
  if ds = [] then none
  else some (ds.foldl (fun a c => a * 10 + (c.toNat - 48)) 0, cs.drop ds.length)

mutual
/-- Parse one JSON value from the front of the input (fuel-bounded
recursive descent); numbers are integers, mirroring the `JVal` model. -/
def parseVal : Nat → List Char → Option (JVal × List Char)
  | 0, _ => none
  | fuel + 1, cs =>
    match skipWs cs with
    | [] => none
    | c :: cs1 =>
      if c = 'n' then
        match cs1 with
        | 'u' :: 'l' :: 'l' :: rest => some (.jnull, rest)
        | _ => none
      else if c = 't' then
        match cs1 with
        | 'r' :: 'u' :: 'e' :: rest => some (.jbool true, rest)
        | _ => none
      else if c = 'f' then
        match cs1 with
        | 'a' :: 'l' :: 's' :: 'e' :: rest => some (.jbool false, rest)
        | _ => none
      else if c = '\x22' then
        match parseStringBody (cs1.length + 1) cs1 with
        | some (out, rest) => some (.jstr (String.mk out), rest)
        | none => none
      else if c = '-' then
        match parseNat cs1 with
        | some (n, rest) => some (.jnum (-(n : Int)), rest)
        | none => none
      else if 48 ≤ c.toNat ∧ c.toNat ≤ 57 then
        match parseNat (c :: cs1) with
        | some (n, rest) => some (.jnum (n : Int), rest)
        | none => none
      else if c = '[' then
        match skipWs cs1 with
        | ']' :: rest => some (.jarr [], rest)
        | cs2 =>
          match parseArrItems fuel cs2 with
          | some (vs, rest) => some (.jarr vs, rest)
          | none => none
      else if c = '\x7b' then
        match skipWs cs1 with
        | '\x7d' :: rest => some (.jobj [], rest)
        | cs2 =>
          match parseObjItems fuel cs2 with
          | some (fs, rest) => some (.jobj fs, rest)
          | none => none
      else none

/-- Parse the items of a nonempty JSON array, up to and including `]`. -/
def parseArrItems : Nat → List Char → Option (List JVal × List Char)
  | 0, _ => none
  | fuel + 1, cs =>
    match parseVal fuel cs with
    | some (v, rest) =>
      match skipWs rest with
      | ',' :: rest1 =>
        match parseArrItems fuel rest1 with
        | some (vs, rest2) => some (v :: vs, rest2)
        | none => none
      | ']' :: rest1 => some ([v], rest1)
      | _ => none
    | none => none

/-- Parse the fields of a nonempty JSON object, up to and including the
closing brace. -/
def parseObjItems : Nat → List Char → Option (List (String × JVal) × List Char)
  | 0, _ => none
  | fuel + 1, cs =>
    match skipWs cs with
    | q :: rest =>
      if q = '\x22' then
        match parseStringBody (rest.length + 1) rest with
        | some (key, rest1) =>
          match skipWs rest1 with
          | ':' :: rest2 =>
            match parseVal fuel rest2 with
            | some (v, rest3) =>
              match skipWs rest3 with
              | ',' :: rest4 =>
                match parseObjItems fuel rest4 with
                | some (fs, rest5) => some ((String.mk key, v) :: fs, rest5)
                | none => none
              | '\x7d' :: rest4 => some ([(String.mk key, v)], rest4)
              | _ => none
            | none => none
          | _ => none
        | none => none
      else none
    | [] => none
end

/-- Parse one JSON value from the front of a string, returning it and the
unconsumed remainder — the shape of `json.Decoder.Decode`, which succeeds
on a valid leading value even with trailing data. -/
def jsonParsePrefix (s : String) : Option (JVal × List Char) :=
  parseVal (2 * s.length + 2) s.data

/-- Parse a string that must be exactly one JSON value up to surrounding
whitespace — the shape of `json.Unmarshal`. -/
def jsonParseFull (s : String) : Option JVal :=
  match jsonParsePrefix s with
  | some (v, rest) => if skipWs rest = [] then some v else none
  | none => none

/-! ## The Executor: `Client.do` (src/keycloak.go:290-335) -/

/-- `ioutil.ReadAll(resp.Body)`: the readable bytes and the read error, if
any. On a clean stream the returned slice is non-nil even when empty, so
the source's `data != nil` guard is satisfied whenever the error is nil. -/
def readAll (b : HttpResponseBody) : String × Option GoErr := (b.data, b.readErr)

/-- `json.Unmarshal(data, errorResponse)` as it affects the `Message` field
(JSON tag `error_description`): the field is set exactly when the data is
one full JSON object carrying a string under the `error_description` key;
any failure (empty data, malformed JSON, missing key, wrong type) leaves
the field untouched. -/
def unmarshalErrorDescription (data : String) : Option String :=
  match jsonParseFull data with
  | some (.jobj fs) =>
    match fs.lookup "error_description" with
    | some (.jstr m) => some m
    | _ => none
  | _ => none

/-- The `Message` built by the error path of `Client.do`
(src/keycloak.go:310-316): best-effort body read, then best-effort
unmarshal, with every failure tolerated silently. -/
def upstreamMessage (b : HttpResponseBody) : String :=
  match readAll b with
  | (data, Option.none) =>
    match unmarshalErrorDescription data with
    | some m => m
    | none => ""
  | (_, some _) => ""

/-- `io.Copy(w, resp.Body)`: the sink after the copy and the first error
encountered (a failing sink accepts nothing; otherwise the readable prefix
is copied and any read error is reported). -/
def ioCopy (w : GoWriter) (b : HttpResponseBody) : GoWriter × Option GoErr :=
  match w.writeErr with
  | some e => (w, some e)
  | none => ({ w with written := w.written ++ b.data }, b.readErr)

/-- `json.NewDecoder(resp.Body).Decode(v)`: the decoder skips leading
whitespace looking for a value, so a stream holding no non-whitespace byte
yields `io.EOF` (`.ok none` — or the stream's read error, if it has one);
`.ok (some val)` is a successfully decoded leading value (trailing data is
left unread); `.error` is a decode failure on a stream that does hold a
non-whitespace byte. -/
def decodeStream (b : HttpResponseBody) : Except GoErr (Option JVal) :=
  if skipWs b.data.data = [] then
    match b.readErr with
    | some e => .error e
    | none => .ok Option.none
  else
    match jsonParsePrefix b.data with
    | some (v, _) => .ok (some v)
    | none => .error (GoErr.mk "invalid JSON")

/-- The Executor `Client.do` (src/keycloak.go:290-335), as a function of
the caller's context, the dispatch outcome `c.httpClient.Do(req)` (where
`.error e` models the documented pairing of a nil response with the error)
and the caller's target `v`. It mirrors the source statement by statement;
in particular, when dispatch errors and the context is not done, control
falls through the `select`'s default branch to `defer resp.Body.Close()`,
which dereferences the nil response — reported here as `.panic`. -/
def clientDo (ctx : Ctx) (dispatch : Except GoErr HttpResponse) (v : Target) : DoResult :=
  match dispatch with
  | .error _ =>
    if ctx.done then .ret Option.none (some (.goError ctx.ctxErr)) v
    else .panic
  | .ok resp =>
    if 300 ≤ resp.statusCode then
      .ret Option.none
        (some (.upstream { response := resp, message := upstreamMessage resp.body })) v
    else
      match v with
      | .none => .ret (some { response := resp }) Option.none v
      | .writer w =>
        let wres := ioCopy w resp.body
        .ret (some { response := resp }) Option.none (.writer wres.1)
      | .value t =>
        match decodeStream resp.body with
        | .ok Option.none => .ret (some { response := resp }) Option.none (.value t)
        | .ok (some val) => .ret (some { response := resp }) Option.none (.value val)
        | .error e => .ret (some { response := resp }) (some (.goError e)) (.value t)

/-! ## Client configuration and the Request Builder (src/keycloak.go:17-287) -/

/-- src/keycloak.go:18 -/
def defaultAdminBase : String := "admin/realms"

/-- src/keycloak.go:19 -/
def defaultBase : String := "realms"

/-- src/keycloak.go:21 -/
def formEncoded : String := "application/x-www-form-urlencoded"

/-- src/keycloak.go:22 -/
def passwordGrant : String := "password"

/-- src/keycloak.go:23 -/
def clientGrant : String := "client_credentials"

/-- src/keycloak.go:24 -/
def offlineScope : String := "offline_access"

/-- `OIDCToken` — Modelled from the spec: the struct is declared outside
`src/keycloak.go`; the spec's data model gives `{AccessToken, ...}` and the
source reads only `token.AccessToken`. -/
structure OIDCToken where
  AccessToken : String
deriving DecidableEq, Repr

/-- `AccessGrantRequest` — Modelled from the spec: the struct is declared
outside `src/keycloak.go`; the spec's data model gives the transient value
object `{GrantType, Scope, Username, Password}`, exactly the fields the
source assigns. The Go zero value `&AccessGrantRequest{}` has every field
empty. -/
structure AccessGrantRequest where
  GrantType : String
  Scope : String
  Username : String
  Password : String
deriving DecidableEq, Repr

/-- `Client` — the Keycloak client configuration (src/keycloak.go:45-69).
The transport (`httpClient`) and the service back-references are
abstracted: dispatch and token acquisition enter the model as function
parameters of the operations that use them, and `baseURL` resolution as
the `resolve` parameter (its string form is kept as configuration data). -/
structure Client where
  baseURL : String
  realm : String
  hasOfflineAccess : Bool
  isServiceAccount : Bool
  isConfidential : Bool
  clientID : String
  clientSecret : String
  adminAccount : String
  adminPass : String
  adminOIDC : OIDCToken
deriving DecidableEq, Repr

/-- `headers` — the caller's header hints (src/keycloak.go:75-78). -/
structure RequestHeaders where
  authorization : String
  contentType : String
deriving DecidableEq, Repr

/-- An `*http.Request` as `newRequest` builds it: method, resolved URL,
entity body, and header map. -/
structure HttpRequest where
  method : String
  url : String
  bodyEntity : Option String
  header : List (String × String)
deriving DecidableEq, Repr

/-- `http.Header.Set`: map update — any existing value for the key is
replaced (a `map[string][]string` assignment; entry order is not
observable in a Go map). -/
def headerSet (hs : List (String × String)) (k v : String) : List (String × String) :=
  hs.filter (fun p => !(p.1 == k)) ++ [(k, v)]

/-- `req.Header.Set(k, v)`. -/
def HttpRequest.setHeader (r : HttpRequest) (k v : String) : HttpRequest :=
  { r with header := headerSet r.header k v }

/-- `req.Header.Get(k)`. -/
def HttpRequest.getHeader (r : HttpRequest) (k : String) : Option String :=
  (r.header.find? (fun p => p.1 == k)).map (fun p => p.2)

/-- Helper for `goQueryValues`: flatten scalar fields to key/value pairs. -/
def goQueryFields : List (String × JVal) → Except GoErr (List (String × String))
  | [] => .ok []
  | (k, .jstr s) :: fs =>
    match goQueryFields fs with
    | .ok ps => .ok ((k, s) :: ps)
    | .error e => .error e
  | (k, .jnum n) :: fs =>
    match goQueryFields fs with
    | .ok ps => .ok ((k, String.mk (intChars n)) :: ps)
    | .error e => .error e
  | (k, .jbool b) :: fs =>
    match goQueryFields fs with
    | .ok ps => .ok ((k, if b then "true" else "false") :: ps)
    | .error e => .error e
  | _ => .error (GoErr.mk "query: unencodable field")

/-- `query.Values(body)` (github.com/google/go-querystring) restricted to
the `JVal` body model: a flat object of scalar fields maps to key/value
pairs; anything else fails to encode. -/
def goQueryValues : JVal → Except GoErr (List (String × String))
  | .jobj fs => goQueryFields fs
  | _ => .error (GoErr.mk "query: Values() expects struct input")

/-- `url.Values.Encode`: `k=v` pairs joined by `&` (percent-encoding and
key sorting are out of model scope; no claim inspects a form entity). -/
def urlValuesEncode (ps : List (String × String)) : String :=
  String.intercalate "&" (ps.map (fun p => p.1 ++ "=" ++ p.2))

/-- The body-encoding step of `newRequest` (src/keycloak.go:218-238): the
entity attached to the outgoing request, or an encoding error. The JSON
branch is `json.NewEncoder` with `SetEscapeHTML(false)`, whose `Encode`
appends a newline. `http.NewRequest` itself always succeeds in the model
(its own failure modes — invalid method syntax — are outside every claim). -/
def entityOf (body : Option JVal) (h : RequestHeaders) : Except GoErr (Option String) :=
  if h.contentType == formEncoded && body.isSome then
    match body with
    | some b =>
      match goQueryValues b with
      | .ok ps => .ok (some (urlValuesEncode ps))
      | .error e => .error e
    | none => .ok Option.none
  else
    match body with
    | some b => .ok (some (String.mk (encJson false b) ++ "\n"))
    | none => .ok Option.none

/-- The header-resolution step of `newRequest` (src/keycloak.go:243-251):
explicit `contentType` hint wins; else `application/json` when a body is
present; an `authorization` hint is set verbatim. -/
def buildBaseRequest (method u : String) (ent : Option String) (body : Option JVal)
    (h : RequestHeaders) : HttpRequest :=
  let req : HttpRequest := { method := method, url := u, bodyEntity := ent, header := [] }
  let req := if h.contentType ≠ "" then req.setHeader "Content-Type" h.contentType else req
  let req :=
    if body.isSome && (h.contentType == "") then
      req.setHeader "Content-Type" "application/json"
    else req
  if h.authorization ≠ "" then req.setHeader "Authorization" h.authorization else req

/-- The `AccessGrantRequest` assembled in the `isAdminRequest` branch of
`newRequest` (src/keycloak.go:256-278): scope from `hasOfflineAccess`, then
grant type and credentials from the configuration mode. -/
def Client.adminGrant (c : Client) : AccessGrantRequest :=
  let g : AccessGrantRequest := { GrantType := "", Scope := "", Username := "", Password := "" }
  let g := if c.hasOfflineAccess then { g with Scope := offlineScope } else g
  if c.isConfidential && c.isServiceAccount then
    { g with GrantType := clientGrant }
  else
    { g with GrantType := passwordGrant, Username := c.adminAccount, Password := c.adminPass }

/-- The Request Builder `Client.newRequest` (src/keycloak.go:206-287).
`resolve` models `c.baseURL.Parse(path)`; `fetch` models
`c.Authentication.GetOIDCToken(context.Background(), grant)` — code of
this repository outside `src/keycloak.go`, abstracted as a function of the
grant request, so every theorem below holds for every possible token
service behaviour. -/
def Client.newRequest (c : Client)
    (resolve : String → Except GoErr String)
    (fetch : AccessGrantRequest → Except GoErr OIDCToken)
    (method : String) (path : String) (body : Option JVal)
    (h : RequestHeaders) (isAdminRequest : Bool) :
    Except GoErr HttpRequest :=
  match resolve path with
  | .error e => .error e
  | .ok u =>
    match entityOf body h with
    | .error e => .error e
    | .ok ent =>
      let req := buildBaseRequest method u ent body h
      if isAdminRequest then
        match fetch c.adminGrant with
        | .error e => .error e
        | .ok token => .ok (req.setHeader "Authorization" ("Bearer " ++ token.AccessToken))
      else .ok req

/-- The grant requests `newRequest` submits to the Token Acquirer: one per
admin-flagged call that reaches the token-acquisition branch
(src/keycloak.go:252-278), independent of the fetch outcome — the fetch is
performed before its error is examined. -/
def Client.newRequestGrants (c : Client)
    (resolve : String → Except GoErr String)
    (path : String) (body : Option JVal)
    (h : RequestHeaders) (isAdminRequest : Bool) : List AccessGrantRequest :=
  match resolve path with
  | .error _ => []
  | .ok _ =>
    match entityOf body h with
    | .error _ => []
    | .ok _ => if isAdminRequest then [c.adminGrant] else []

/-! ## Executor theorems -/

/-- `json.Unmarshal` of an empty byte slice fails, leaving `Message` empty. -/
theorem unmarshalErrorDescription_empty : unmarshalErrorDescription "" = Option.none := rfl

/-- A context that is not yet done. -/
def sampleCtx : Ctx := { done := false, ctxErr := GoErr.mk "context canceled" }

/-- A status ≥ 300 body carrying a JSON `error_description`. -/
def sampleErrBody : HttpResponseBody :=
  { data := "\x7b\"error_description\":\"bad request\"\x7d", readErr := Option.none }

/-- C1: BUG in the code, evaluated at the failing input. The claim says
that when transport dispatch errors and the context is not done, `do`
returns the raw transport error. The code honors the first half (context
done ⇒ the context's error is returned), but in the other case it falls
through the `select`'s default branch and dereferences the nil response at
`defer resp.Body.Close()` — a nil-pointer panic, not a returned transport
error. -/
theorem c1_transport_error_paths :
    clientDo { done := true, ctxErr := GoErr.mk "context deadline exceeded" }
        (.error (GoErr.mk "connection refused")) .none
      = .ret Option.none (some (.goError (GoErr.mk "context deadline exceeded"))) .none
    ∧ clientDo { done := false, ctxErr := GoErr.mk "context deadline exceeded" }
        (.error (GoErr.mk "connection refused")) .none
      = .panic :=
  ⟨rfl, rfl⟩

/-- C2: a dispatched response with status ≥ 300 is an error: `do` returns
no success value together with an `ErrorResponse` holding the raw response,
whose `Message` is the body's `error_description` exactly when the body
reads cleanly and parses as a JSON object with that string field, and is
empty when the body is unreadable, empty, or unparsable; a response with
status < 300 is a success: the response wrapper is returned. -/
theorem c2_status_boundary_and_error_body (ctx : Ctx) (resp : HttpResponse) (v : Target) :
    (300 ≤ resp.statusCode →
       clientDo ctx (.ok resp) v
         = .ret Option.none
             (some (.upstream { response := resp, message := upstreamMessage resp.body })) v
       ∧ (∀ m, resp.body.readErr = Option.none →
            unmarshalErrorDescription resp.body.data = some m → upstreamMessage resp.body = m)
       ∧ (resp.body.readErr ≠ Option.none ∨ resp.body.data = ""
            ∨ unmarshalErrorDescription resp.body.data = Option.none →
            upstreamMessage resp.body = ""))
    ∧ (resp.statusCode < 300 → (clientDo ctx (.ok resp) v).respOf = some { response := resp }) := by
  constructor
  · intro hge
    refine ⟨by simp [clientDo, hge], ?_, ?_⟩
    · intro m hre hum
      simp [upstreamMessage, readAll, hre, hum]
    · intro hbad
      rcases h : resp.body.readErr with _ | e
      · rcases hbad with hre | hda | hum
        · exact absurd h hre
        · simp [upstreamMessage, readAll, h, hda, unmarshalErrorDescription_empty]
        · simp [upstreamMessage, readAll, h, hum]
      · simp [upstreamMessage, readAll, h]
  · intro hlt
    have hnotle : ¬ 300 ≤ resp.statusCode := by omega
    cases v with
    | none => simp [clientDo, hnotle, DoResult.respOf]
    | writer w => simp [clientDo, hnotle, DoResult.respOf]
    | value t =>
      rcases h : decodeStream resp.body with e | ov
      · simp [clientDo, hnotle, h, DoResult.respOf]
      · rcases ov with _ | val <;> simp [clientDo, hnotle, h, DoResult.respOf]

/-- C2 witness: status 300 with a decodable error body yields the populated
error structure and no success value; status 299 with the same body is a
success. -/
theorem c2_boundary_witness :
    clientDo sampleCtx (.ok { statusCode := 300, body := sampleErrBody }) .none
      = .ret Option.none
          (some (.upstream { response := { statusCode := 300, body := sampleErrBody },
                             message := upstreamMessage sampleErrBody })) .none
    ∧ upstreamMessage sampleErrBody = "bad request"
    ∧ (clientDo sampleCtx (.ok { statusCode := 299, body := sampleErrBody }) .none).respOf
        = some { response := { statusCode := 299, body := sampleErrBody } } :=
  ⟨((c2_status_boundary_and_error_body sampleCtx
      { statusCode := 300, body := sampleErrBody } .none).1 (by norm_num)).1,
   rfl,
   (c2_status_boundary_and_error_body sampleCtx
      { statusCode := 299, body := sampleErrBody } .none).2 (by norm_num)⟩

/-- C5 counterexample: a success-status response streamed into a failing
byte sink — `io.Copy` reports an error, yet `do` returns a nil error (the
copy's results are discarded at src/keycloak.go:322), refuting the claim
that streaming errors are propagated to the caller. -/
theorem c5_copy_error_not_propagated :
    (ioCopy { written := "", writeErr := some (GoErr.mk "disk full") }
        { data := "abc", readErr := Option.none }).2 = some (GoErr.mk "disk full")
    ∧ clientDo sampleCtx
        (.ok { statusCode := 200, body := { data := "abc", readErr := Option.none } })
        (.writer { written := "", writeErr := some (GoErr.mk "disk full") })
      = .ret (some { response := { statusCode := 200,
                                   body := { data := "abc", readErr := Option.none } } })
          Option.none (.writer { written := "", writeErr := some (GoErr.mk "disk full") }) :=
  ⟨rfl, rfl⟩

/-- C5 (amended): on a success-status response with a byte-sink target, the
body is streamed through `io.Copy` and the copy's error result is silently
discarded — the call returns the response wrapper with a nil error even
when the copy fails. -/
theorem c5_amended_copy_error_discarded (ctx : Ctx) (resp : HttpResponse) (w : GoWriter)
    (hs : resp.statusCode < 300) :
    clientDo ctx (.ok resp) (.writer w)
      = .ret (some { response := resp }) Option.none (.writer (ioCopy w resp.body).1) := by
  have hnotle : ¬ 300 ≤ resp.statusCode := by omega
  simp [clientDo, hnotle]

/-- C5 (amended) witness: a clean sink receives the bytes; the call
succeeds. -/
theorem c5_amended_witness :
    clientDo sampleCtx
        (.ok { statusCode := 200, body := { data := "abc", readErr := Option.none } })
        (.writer { written := "", writeErr := Option.none })
      = .ret (some { response := { statusCode := 200,
                                   body := { data := "abc", readErr := Option.none } } })
          Option.none (.writer { written := "abc", writeErr := Option.none }) :=
  c5_amended_copy_error_discarded sampleCtx
    { statusCode := 200, body := { data := "abc", readErr := Option.none } }
    { written := "", writeErr := Option.none } (by norm_num)

/-- C7: a success-status response with an empty, cleanly-terminated body
and a non-writer decode target returns success (`io.EOF` is swallowed) and
leaves the target exactly as it was. -/
theorem c7_empty_body_no_mutation (ctx : Ctx) (resp : HttpResponse) (t : JVal)
    (hs : resp.statusCode < 300) (hd : resp.body.data = "")
    (hr : resp.body.readErr = Option.none) :
    clientDo ctx (.ok resp) (.value t)
      = .ret (some { response := resp }) Option.none (.value t) := by
  have hnotle : ¬ 300 ≤ resp.statusCode := by omega
  have hws : skipWs resp.body.data.data = [] := by rw [hd]; rfl
  simp [clientDo, hnotle, decodeStream, hws, hr]

/-- C7 witness: status 204, empty body, a held value survives untouched. -/
theorem c7_witness :
    clientDo sampleCtx (.ok { statusCode := 204, body := { data := "", readErr := Option.none } })
        (.value (.jstr "keep"))
      = .ret (some { response := { statusCode := 204,
                                   body := { data := "", readErr := Option.none } } })
          Option.none (.value (.jstr "keep")) :=
  c7_empty_body_no_mutation sampleCtx
    { statusCode := 204, body := { data := "", readErr := Option.none } }
    (.jstr "keep") (by norm_num) rfl rfl

/-- C8: a success-status response whose non-empty body — one holding a
non-whitespace byte, so `Decode` reports a real failure rather than the
`io.EOF` that a whitespace-only stream produces — fails to decode as JSON
surfaces the decode failure as the call's error while still returning the
non-nil response wrapper (and leaves the target as it was). -/
theorem c8_malformed_body_surfaces_error (ctx : Ctx) (resp : HttpResponse) (t : JVal)
    (hs : resp.statusCode < 300) (hd : skipWs resp.body.data.data ≠ [])
    (hp : jsonParsePrefix resp.body.data = Option.none) :
    clientDo ctx (.ok resp) (.value t)
      = .ret (some { response := resp }) (some (.goError (GoErr.mk "invalid JSON")))
          (.value t) := by
  have hnotle : ¬ 300 ≤ resp.statusCode := by omega
  simp [clientDo, hnotle, decodeStream, hd, hp]

/-- C8 witness: status 200 with the unparsable body `oops`. -/
theorem c8_witness :
    clientDo sampleCtx
        (.ok { statusCode := 200, body := { data := "oops", readErr := Option.none } })
        (.value .jnull)
      = .ret (some { response := { statusCode := 200,
                                   body := { data := "oops", readErr := Option.none } } })
          (some (.goError (GoErr.mk "invalid JSON"))) (.value .jnull) :=
  c8_malformed_body_surfaces_error sampleCtx
    { statusCode := 200, body := { data := "oops", readErr := Option.none } }
    .jnull (by norm_num) (by decide) rfl

/-! ## Request Builder theorems -/

/-- After `headerSet`, looking the key up finds exactly the new value. -/
theorem find?_headerSet (hs : List (String × String)) (k v : String) :
    (headerSet hs k v).find? (fun p => p.1 == k) = some (k, v) := by
  unfold headerSet
  have hnone : (hs.filter (fun p => !(p.1 == k))).find? (fun p => p.1 == k)
      = Option.none := by
    rw [List.find?_eq_none]
    intro x hx
    have hpx := List.of_mem_filter hx
    simp only [Bool.not_eq_true', beq_eq_false_iff_ne, ne_eq] at hpx
    simp [hpx]
  rw [List.find?_append, hnone]
  simp [List.find?]

/-- `Header.Get` after `Header.Set` of the same key. -/
theorem getHeader_setHeader (r : HttpRequest) (k v : String) :
    (r.setHeader k v).getHeader k = some v := by
  simp [HttpRequest.setHeader, HttpRequest.getHeader, find?_headerSet]

/-- Every grant request an admin-flagged `newRequest` call submits is the
one assembled by `Client.adminGrant`. -/
theorem mem_newRequestGrants (c : Client) (resolve : String → Except GoErr String)
    (path : String) (body : Option JVal) (h : RequestHeaders) (g : AccessGrantRequest)
    (hg : g ∈ c.newRequestGrants resolve path body h true) : g = c.adminGrant := by
  unfold Client.newRequestGrants at hg
  rcases hres : resolve path with e | u <;> rw [hres] at hg
  · simp at hg
  · rcases hent : entityOf body h with e | ent <;> rw [hent] at hg
    · simp at hg
    · simpa using hg

/-- C3: the grant type of every grant request assembled for an
admin-flagged request is a pure function of the configuration: in
service-account mode (`isConfidential ∧ isServiceAccount`) it is
`client_credentials` with empty username and password; in every other mode
it is `password` with the configured admin account and password. -/
theorem c3_grant_type_by_mode (c : Client) (resolve : String → Except GoErr String)
    (path : String) (body : Option JVal) (h : RequestHeaders) (g : AccessGrantRequest)
    (hg : g ∈ c.newRequestGrants resolve path body h true) :
    (c.isConfidential = true ∧ c.isServiceAccount = true →
       g.GrantType = clientGrant ∧ g.Username = "" ∧ g.Password = "")
    ∧ (¬(c.isConfidential = true ∧ c.isServiceAccount = true) →
       g.GrantType = passwordGrant ∧ g.Username = c.adminAccount
         ∧ g.Password = c.adminPass) := by
  have hge : g = c.adminGrant := mem_newRequestGrants c resolve path body h g hg
  subst hge
  constructor
  · rintro ⟨h1, h2⟩
    cases hoff : c.hasOfflineAccess <;>
      simp [Client.adminGrant, hoff, h1, h2]
  · intro hne
    have hb : (c.isConfidential && c.isServiceAccount) = false := by
      cases hc : c.isConfidential <;> cases hs : c.isServiceAccount <;> simp_all
    cases hoff : c.hasOfflineAccess <;>
      simp [Client.adminGrant, hoff, hb]

/-- C9: every grant request assembled for an admin-flagged request carries
`scope = offline_access` exactly when `hasOfflineAccess` is set, and an
empty (absent) scope otherwise — regardless of the grant type selected. -/
theorem c9_offline_scope (c : Client) (resolve : String → Except GoErr String)
    (path : String) (body : Option JVal) (h : RequestHeaders) (g : AccessGrantRequest)
    (hg : g ∈ c.newRequestGrants resolve path body h true) :
    (c.hasOfflineAccess = true → g.Scope = offlineScope)
    ∧ (c.hasOfflineAccess = false → g.Scope = "")
    ∧ (g.Scope = offlineScope ↔ c.hasOfflineAccess = true) := by
  have hge : g = c.adminGrant := mem_newRequestGrants c resolve path body h g hg
  subst hge
  have hscope : c.adminGrant.Scope = if c.hasOfflineAccess then offlineScope else "" := by
    cases hoff : c.hasOfflineAccess <;>
      cases hcs : (c.isConfidential && c.isServiceAccount) <;>
        simp [Client.adminGrant, hoff, hcs]
  refine ⟨?_, ?_, ?_⟩
  · intro hoff; simp [hscope, hoff]
  · intro hoff; simp [hscope, hoff]
  · constructor
    · intro hsc
      cases hoff : c.hasOfflineAccess
      · rw [hoff] at hscope; simp at hscope; rw [hscope] at hsc
        exact absurd hsc (by simp [offlineScope])
      · rfl
    · intro hoff; simp [hscope, hoff]

/-- C4: for an admin-flagged request, a successfully built request carries
`Authorization: Bearer <acquired token>` — overriding whatever
authorization hint the caller supplied — and a failed token acquisition
aborts `newRequest` with exactly that error (once construction has reached
the acquisition step). -/
theorem c4_admin_bearer_override (c : Client) (resolve : String → Except GoErr String)
    (fetch : AccessGrantRequest → Except GoErr OIDCToken)
    (method path : String) (body : Option JVal) (h : RequestHeaders) :
    (∀ req, c.newRequest resolve fetch method path body h true = .ok req →
       ∃ tok, fetch c.adminGrant = .ok tok
         ∧ req.getHeader "Authorization" = some ("Bearer " ++ tok.AccessToken))
    ∧ (∀ e u ent, resolve path = .ok u → entityOf body h = .ok ent →
         fetch c.adminGrant = .error e →
         c.newRequest resolve fetch method path body h true = .error e) := by
  constructor
  · intro req hreq
    unfold Client.newRequest at hreq
    rcases hres : resolve path with e | u <;> rw [hres] at hreq
    · simp at hreq
    · rcases hent : entityOf body h with e | ent <;> rw [hent] at hreq
      · simp at hreq
      · rcases hf : fetch c.adminGrant with e | tok <;> simp only [hf] at hreq
        · simp at hreq
        · refine ⟨tok, rfl, ?_⟩
          simp only [if_true] at hreq
          have hreq2 := hreq
          simp only [Except.ok.injEq] at hreq2
          rw [← hreq2]
          exact getHeader_setHeader _ "Authorization" ("Bearer " ++ tok.AccessToken)
  · intro e u ent hres hent hf
    unfold Client.newRequest
    rw [hres, hent, hf]
    rfl

/-- C10: the Request Builder never reads the stored `adminOIDC` token —
two client states differing only in `adminOIDC` produce identical
`newRequest` results and identical grant submissions for every argument
list — and every admin-flagged call that succeeds has performed its own
fresh token acquisition (its grant log is exactly the freshly assembled
grant). -/
theorem c10_adminOIDC_not_consulted (c : Client) (t : OIDCToken)
    (resolve : String → Except GoErr String)
    (fetch : AccessGrantRequest → Except GoErr OIDCToken)
    (method path : String) (body : Option JVal) (h : RequestHeaders)
    (isAdminRequest : Bool) :
    ({ c with adminOIDC := t } : Client).newRequest resolve fetch method path body h
        isAdminRequest
      = c.newRequest resolve fetch method path body h isAdminRequest
    ∧ ({ c with adminOIDC := t } : Client).newRequestGrants resolve path body h
        isAdminRequest
      = c.newRequestGrants resolve path body h isAdminRequest
    ∧ (∀ req, c.newRequest resolve fetch method path body h true = .ok req →
        c.newRequestGrants resolve path body h true = [c.adminGrant]) := by
  refine ⟨rfl, rfl, ?_⟩
  intro req hreq
  unfold Client.newRequest at hreq
  unfold Client.newRequestGrants
  rcases hres : resolve path with e | u
  · rw [hres] at hreq
    simp at hreq
  · rw [hres] at hreq
    rcases hent : entityOf body h with e2 | ent
    · rw [hent] at hreq
      simp at hreq
    · simp

/-! ## Sample configurations and witnesses for the Request Builder claims -/

/-- A resolver standing in for `url.URL.Parse` against a fixed base. -/
def sampleResolve : String → Except GoErr String := fun p => .ok ("http://kc/" ++ p)

/-- A token service that always hands out the same token. -/
def sampleFetch : AccessGrantRequest → Except GoErr OIDCToken :=
  fun _ => .ok { AccessToken := "tok123" }

/-- Service-account mode configuration (confidential + service account),
with offline access requested. -/
def sampleServiceClient : Client :=
  { baseURL := "http://kc/", realm := "r", hasOfflineAccess := true,
    isServiceAccount := true, isConfidential := true, clientID := "cid",
    clientSecret := "sec", adminAccount := "", adminPass := "",
    adminOIDC := { AccessToken := "" } }

/-- Public-admin mode configuration (neither confidential nor service
account), without offline access. -/
def samplePublicClient : Client :=
  { baseURL := "http://kc/", realm := "r", hasOfflineAccess := false,
    isServiceAccount := false, isConfidential := false, clientID := "cid",
    clientSecret := "", adminAccount := "root", adminPass := "pw",
    adminOIDC := { AccessToken := "" } }

/-- Empty header hints. -/
def sampleHeaders : RequestHeaders := { authorization := "", contentType := "" }

/-- C3 witness: service-account mode yields `client_credentials` with empty
credentials; public-admin mode yields `password` with the configured admin
account and password. -/
theorem c3_witness :
    (sampleServiceClient.adminGrant.GrantType = clientGrant
      ∧ sampleServiceClient.adminGrant.Username = ""
      ∧ sampleServiceClient.adminGrant.Password = "")
    ∧ (samplePublicClient.adminGrant.GrantType = passwordGrant
      ∧ samplePublicClient.adminGrant.Username = "root"
      ∧ samplePublicClient.adminGrant.Password = "pw") :=
  ⟨(c3_grant_type_by_mode sampleServiceClient sampleResolve "p" Option.none sampleHeaders
      sampleServiceClient.adminGrant (by decide)).1 ⟨rfl, rfl⟩,
   (c3_grant_type_by_mode samplePublicClient sampleResolve "p" Option.none sampleHeaders
      samplePublicClient.adminGrant (by decide)).2 (by decide)⟩

/-- C9 witness: with offline access the grant carries
`scope = offline_access`; without it the scope is absent (empty) — and the
two sample clients use different grant types, so both grant types are
covered. -/
theorem c9_witness :
    sampleServiceClient.adminGrant.Scope = offlineScope
    ∧ samplePublicClient.adminGrant.Scope = "" :=
  ⟨(c9_offline_scope sampleServiceClient sampleResolve "p" Option.none sampleHeaders
      sampleServiceClient.adminGrant (by decide)).1 rfl,
   (c9_offline_scope samplePublicClient sampleResolve "p" Option.none sampleHeaders
      samplePublicClient.adminGrant (by decide)).2.1 rfl⟩

/-- C4 witness: with an `Authorization: Basic abc` hint, the built admin
request carries `Bearer tok123` instead; with a failing token service the
construction aborts with the fetch error. -/
theorem c4_witness :
    samplePublicClient.newRequest sampleResolve sampleFetch "GET" "p" Option.none
        { authorization := "Basic abc", contentType := "" } true
      = .ok { method := "GET", url := "http://kc/p", bodyEntity := Option.none,
              header := [("Authorization", "Bearer tok123")] }
    ∧ (∃ tok, sampleFetch samplePublicClient.adminGrant = .ok tok
        ∧ HttpRequest.getHeader
            { method := "GET", url := "http://kc/p", bodyEntity := Option.none,
              header := [("Authorization", "Bearer tok123")] } "Authorization"
          = some ("Bearer " ++ tok.AccessToken))
    ∧ samplePublicClient.newRequest sampleResolve (fun _ => .error (GoErr.mk "401"))
        "GET" "p" Option.none { authorization := "Basic abc", contentType := "" } true
      = .error (GoErr.mk "401") :=
  ⟨rfl,
   (c4_admin_bearer_override samplePublicClient sampleResolve sampleFetch "GET" "p"
      Option.none { authorization := "Basic abc", contentType := "" }).1
     { method := "GET", url := "http://kc/p", bodyEntity := Option.none,
       header := [("Authorization", "Bearer tok123")] } rfl,
   (c4_admin_bearer_override samplePublicClient sampleResolve
      (fun _ => .error (GoErr.mk "401")) "GET" "p" Option.none
      { authorization := "Basic abc", contentType := "" }).2
     (GoErr.mk "401") "http://kc/p" Option.none rfl rfl rfl⟩

/-- C10 witness: replacing the stored `adminOIDC` token with a stale value
changes nothing about the built request, and the successful admin call's
grant log shows exactly one fresh acquisition. -/
theorem c10_witness :
    ({ samplePublicClient with adminOIDC := { AccessToken := "stale" } } : Client).newRequest
        sampleResolve sampleFetch "GET" "p" Option.none sampleHeaders true
      = samplePublicClient.newRequest sampleResolve sampleFetch "GET" "p" Option.none
          sampleHeaders true
    ∧ samplePublicClient.newRequestGrants sampleResolve "p" Option.none sampleHeaders true
      = [samplePublicClient.adminGrant] :=
  ⟨(c10_adminOIDC_not_consulted samplePublicClient { AccessToken := "stale" }
      sampleResolve sampleFetch "GET" "p" Option.none sampleHeaders true).1,
   (c10_adminOIDC_not_consulted samplePublicClient { AccessToken := "stale" }
      sampleResolve sampleFetch "GET" "p" Option.none sampleHeaders true).2.2
     { method := "GET", url := "http://kc/p", bodyEntity := Option.none,
       header := [("Authorization", "Bearer tok123")] } rfl⟩

/-! ## C6: JSON bodies are emitted without HTML escaping -/

mutual
/-- Occurrences of a character in the string scalars (and object keys) of
a `JVal` — the literal occurrences a faithful encoder must reproduce. -/
def jsonLiteralCount (ch : Char) : JVal → Nat
  | .jstr s => s.data.count ch
  | .jarr xs => jsonLiteralCountArr ch xs
  | .jobj fs => jsonLiteralCountObj ch fs
  | _ => 0

/-- Literal occurrences across array elements. -/
def jsonLiteralCountArr (ch : Char) : List JVal → Nat
  | [] => 0
  | x :: xs => jsonLiteralCount ch x + jsonLiteralCountArr ch xs

/-- Literal occurrences across object fields (keys included). -/
def jsonLiteralCountObj (ch : Char) : List (String × JVal) → Nat
  | [] => 0
  | (k, v) :: fs => k.data.count ch + jsonLiteralCount ch v + jsonLiteralCountObj ch fs
end

/-- Hex digit characters are never `<`, `>` or `&`. -/
theorem hexDigitChar_ne (ch : Char) (hch : ch = '<' ∨ ch = '>' ∨ ch = '&') (n : Nat) :
    hexDigitChar n ≠ ch := by
  have h16 : n % 16 = 0 ∨ n % 16 = 1 ∨ n % 16 = 2 ∨ n % 16 = 3 ∨ n % 16 = 4
      ∨ n % 16 = 5 ∨ n % 16 = 6 ∨ n % 16 = 7 ∨ n % 16 = 8 ∨ n % 16 = 9
      ∨ n % 16 = 10 ∨ n % 16 = 11 ∨ n % 16 = 12 ∨ n % 16 = 13 ∨ n % 16 = 14
      ∨ n % 16 = 15 := by omega
  rcases hch with h | h | h <;> subst h <;>
    (rcases h16 with h|h|h|h|h|h|h|h|h|h|h|h|h|h|h|h <;> simp only [hexDigitChar, h] <;> decide)

/-- Decimal digit characters are never `<`, `>` or `&`. -/
theorem decDigitChar_ne (ch : Char) (hch : ch = '<' ∨ ch = '>' ∨ ch = '&') (n : Nat) :
    decDigitChar n ≠ ch := by
  have h10 : n % 10 = 0 ∨ n % 10 = 1 ∨ n % 10 = 2 ∨ n % 10 = 3 ∨ n % 10 = 4
      ∨ n % 10 = 5 ∨ n % 10 = 6 ∨ n % 10 = 7 ∨ n % 10 = 8 ∨ n % 10 = 9 := by omega
  rcases hch with h | h | h <;> subst h <;>
    (rcases h10 with h|h|h|h|h|h|h|h|h|h <;> simp only [decDigitChar, h] <;> decide)

/-- A `\u00XX` escape contains no `<`, `>` or `&`. -/
theorem count_escU (ch : Char) (hch : ch = '<' ∨ ch = '>' ∨ ch = '&') (d : Char) :
    (escU d).count ch = 0 := by
  have h1 := hexDigitChar_ne ch hch (d.toNat / 16 % 16)
  have h2 := hexDigitChar_ne ch hch (d.toNat % 16)
  have hbs : ('\\' : Char) ≠ ch := by rcases hch with h | h | h <;> subst h <;> decide
  have hu : ('u' : Char) ≠ ch := by rcases hch with h | h | h <;> subst h <;> decide
  have h0 : ('0' : Char) ≠ ch := by rcases hch with h | h | h <;> subst h <;> decide
  simp [escU, List.count_cons, beq_iff_eq, h1, h2, hbs, hu, h0]

/-- One character's emission under `SetEscapeHTML(false)` contains `<`, `>`
or `&` exactly where the source character is that character itself. -/
theorem count_goEscChar (ch : Char) (hch : ch = '<' ∨ ch = '>' ∨ ch = '&') (d : Char) :
    (goEscChar false d).count ch = if d = ch then 1 else 0 := by
  have hq : ('\x22' : Char) ≠ ch := by rcases hch with h | h | h <;> subst h <;> decide
  have hb : ('\\' : Char) ≠ ch := by rcases hch with h | h | h <;> subst h <;> decide
  have hn : ('n' : Char) ≠ ch := by rcases hch with h | h | h <;> subst h <;> decide
  have hr : ('r' : Char) ≠ ch := by rcases hch with h | h | h <;> subst h <;> decide
  have ht : ('t' : Char) ≠ ch := by rcases hch with h | h | h <;> subst h <;> decide
  have hbig : 32 ≤ ch.toNat := by rcases hch with h | h | h <;> subst h <;> decide
  have hfalse : ¬((false : Bool) ∧ (d = '<' ∨ d = '>' ∨ d = '&')) := by simp
  unfold goEscChar
  by_cases h1 : d = '\x22'
  · rw [if_pos h1, if_neg (show d ≠ ch by rw [h1]; exact hq)]
    simp [List.count_cons, beq_iff_eq, hq, hb]
  · rw [if_neg h1]
    by_cases h2 : d = '\\'
    · rw [if_pos h2, if_neg (show d ≠ ch by rw [h2]; exact hb)]
      simp [List.count_cons, beq_iff_eq, hb]
    · rw [if_neg h2, if_neg hfalse]
      by_cases h4 : d = '\n'
      · rw [if_pos h4, if_neg (show d ≠ ch by
          intro he; rw [h4] at he; rw [← he] at hbig; exact absurd hbig (by decide))]
        simp [List.count_cons, beq_iff_eq, hb, hn]
      · rw [if_neg h4]
        by_cases h5 : d = '\r'
        · rw [if_pos h5, if_neg (show d ≠ ch by
            intro he; rw [h5] at he; rw [← he] at hbig; exact absurd hbig (by decide))]
          simp [List.count_cons, beq_iff_eq, hb, hr]
        · rw [if_neg h5]
          by_cases h6 : d = '\t'
          · rw [if_pos h6, if_neg (show d ≠ ch by
              intro he; rw [h6] at he; rw [← he] at hbig; exact absurd hbig (by decide))]
            simp [List.count_cons, beq_iff_eq, hb, ht]
          · rw [if_neg h6]
            by_cases h7 : d.toNat < 32
            · rw [if_pos h7, if_neg (show d ≠ ch by intro he; rw [he] at h7; omega)]
              exact count_escU ch hch d
            · rw [if_neg h7]
              simp [List.count_cons, beq_iff_eq]

/-- Character-wise emission preserves the number of `<`, `>`, `&`. -/
theorem count_flatMap_goEscChar (ch : Char) (hch : ch = '<' ∨ ch = '>' ∨ ch = '&')
    (l : List Char) : (l.flatMap (goEscChar false)).count ch = l.count ch := by
  induction l with
  | nil => simp
  | cons d t ih =>
    simp only [List.flatMap_cons, List.count_append, List.count_cons, ih,
      count_goEscChar ch hch d, beq_iff_eq]
    split_ifs <;> omega

/-- A string literal emitted with `SetEscapeHTML(false)` carries exactly
the source string's `<`, `>`, `&` occurrences. -/
theorem count_encString (ch : Char) (hch : ch = '<' ∨ ch = '>' ∨ ch = '&') (s : String) :
    (encString false s).count ch = s.data.count ch := by
  have hq : ('\x22' : Char) ≠ ch := by rcases hch with h | h | h <;> subst h <;> decide
  simp [encString, List.count_cons, List.count_append, beq_iff_eq, hq,
    count_flatMap_goEscChar ch hch s.data]

/-- Digit runs contain no `<`, `>` or `&`. -/
theorem count_natChars (ch : Char) (hch : ch = '<' ∨ ch = '>' ∨ ch = '&') (n : Nat) :
    (natChars n).count ch = 0 := by
  induction n using Nat.strong_induction_on with
  | _ n ih =>
    by_cases hlt : n < 10
    · rw [natChars, dif_pos hlt]
      simp [List.count_cons, beq_iff_eq, decDigitChar_ne ch hch n]
    · rw [natChars, dif_neg hlt, List.count_append]
      have h1 := ih (n / 10) (Nat.div_lt_self (by omega) (by omega))
      simp [h1, List.count_cons, beq_iff_eq, decDigitChar_ne ch hch (n % 10)]

/-- Number renderings contain no `<`, `>` or `&`. -/
theorem count_intChars (ch : Char) (hch : ch = '<' ∨ ch = '>' ∨ ch = '&') (i : Int) :
    (intChars i).count ch = 0 := by
  have hminus : ('-' : Char) ≠ ch := by rcases hch with h | h | h <;> subst h <;> decide
  unfold intChars
  split_ifs <;>
    simp [List.count_cons, beq_iff_eq, hminus, count_natChars ch hch]

/-- `Header.Set` never touches the entity body. -/
theorem bodyEntity_setHeader (r : HttpRequest) (k v : String) :
    (r.setHeader k v).bodyEntity = r.bodyEntity := rfl

/-- Header resolution never touches the entity body. -/
theorem bodyEntity_buildBaseRequest (method u : String) (ent : Option String)
    (body : Option JVal) (h : RequestHeaders) :
    (buildBaseRequest method u ent body h).bodyEntity = ent := by
  unfold buildBaseRequest
  dsimp only
  split_ifs <;> rfl

/-- Whatever entity the body-encoding step produced is the entity of the
built request, on every header/admin path. -/
theorem newRequest_ok_bodyEntity (c : Client) (resolve : String → Except GoErr String)
    (fetch : AccessGrantRequest → Except GoErr OIDCToken)
    (method path : String) (body : Option JVal) (h : RequestHeaders)
    (isAdminRequest : Bool) (req : HttpRequest) (ent : Option String)
    (hent : entityOf body h = .ok ent)
    (hok : c.newRequest resolve fetch method path body h isAdminRequest = .ok req) :
    req.bodyEntity = ent := by
  unfold Client.newRequest at hok
  rcases hres : resolve path with e | u
  · rw [hres] at hok; simp at hok
  · rw [hres, hent] at hok
    cases isAdminRequest
    · simp only [Bool.false_eq_true, if_false] at hok
      have hre : buildBaseRequest method u ent body h = req := by
        simpa using hok
      rw [← hre]
      exact bodyEntity_buildBaseRequest method u ent body h
    · rcases hf : fetch c.adminGrant with e2 | tok
      · rw [hf] at hok; simp at hok
      · rw [hf] at hok
        simp only [if_true] at hok
        have hre : (buildBaseRequest method u ent body h).setHeader "Authorization"
            ("Bearer " ++ tok.AccessToken) = req := by
          simpa using hok
        rw [← hre, bodyEntity_setHeader]
        exact bodyEntity_buildBaseRequest method u ent body h

mutual
/-- A `JVal` emitted with `SetEscapeHTML(false)` carries exactly the
literal `<`, `>`, `&` occurrences of its string scalars — none are lost to
escapes and none are introduced. -/
theorem count_encJson (ch : Char) (hch : ch = '<' ∨ ch = '>' ∨ ch = '&') :
    ∀ j : JVal, (encJson false j).count ch = jsonLiteralCount ch j
  | .jnull => by rcases hch with h | h | h <;> subst h <;> decide
  | .jbool b => by
      cases b <;> (rcases hch with h | h | h <;> subst h <;> decide)
  | .jnum n => by
      rw [show encJson false (.jnum n) = intChars n from rfl,
          show jsonLiteralCount ch (.jnum n) = 0 from rfl]
      exact count_intChars ch hch n
  | .jstr s => by
      rw [show encJson false (.jstr s) = encString false s from rfl,
          show jsonLiteralCount ch (.jstr s) = s.data.count ch from rfl]
      exact count_encString ch hch s
  | .jarr xs => by
      have hlb : ('[' : Char) ≠ ch := by rcases hch with h | h | h <;> subst h <;> decide
      have hrb : (']' : Char) ≠ ch := by rcases hch with h | h | h <;> subst h <;> decide
      rw [show encJson false (.jarr xs) = '[' :: (encArr false xs ++ [']']) from rfl,
          show jsonLiteralCount ch (.jarr xs) = jsonLiteralCountArr ch xs from rfl,
          List.count_cons, List.count_append, count_encArr ch hch xs]
      simp [beq_iff_eq, hlb, hrb, Ne.symm hlb, Ne.symm hrb]
  | .jobj fs => by
      have hlb : ('\x7b' : Char) ≠ ch := by rcases hch with h | h | h <;> subst h <;> decide
      have hrb : ('\x7d' : Char) ≠ ch := by rcases hch with h | h | h <;> subst h <;> decide
      rw [show encJson false (.jobj fs) = '\x7b' :: (encObj false fs ++ ['\x7d']) from rfl,
          show jsonLiteralCount ch (.jobj fs) = jsonLiteralCountObj ch fs from rfl,
          List.count_cons, List.count_append, count_encObj ch hch fs]
      simp [beq_iff_eq, hlb, hrb, Ne.symm hlb, Ne.symm hrb]

/-- Array-element emission preserves literal `<`, `>`, `&` counts. -/
theorem count_encArr (ch : Char) (hch : ch = '<' ∨ ch = '>' ∨ ch = '&') :
    ∀ xs : List JVal, (encArr false xs).count ch = jsonLiteralCountArr ch xs
  | [] => by
      rw [show encArr false [] = [] from rfl,
          show jsonLiteralCountArr ch [] = 0 from rfl]
      rfl
  | [x] => by
      rw [show encArr false [x] = encJson false x from rfl,
          show jsonLiteralCountArr ch [x] = jsonLiteralCount ch x + 0 from rfl,
          Nat.add_zero]
      exact count_encJson ch hch x
  | x :: y :: xs => by
      have hcm : (',' : Char) ≠ ch := by rcases hch with h | h | h <;> subst h <;> decide
      rw [show encArr false (x :: y :: xs)
            = encJson false x ++ ',' :: encArr false (y :: xs) from rfl,
          show jsonLiteralCountArr ch (x :: y :: xs)
            = jsonLiteralCount ch x + jsonLiteralCountArr ch (y :: xs) from rfl,
          List.count_append, List.count_cons, count_encJson ch hch x,
          count_encArr ch hch (y :: xs)]
      simp [beq_iff_eq, hcm, Ne.symm hcm]

/-- Object-field emission (keys included) preserves literal `<`, `>`, `&`
counts. -/
theorem count_encObj (ch : Char) (hch : ch = '<' ∨ ch = '>' ∨ ch = '&') :
    ∀ fs : List (String × JVal), (encObj false fs).count ch = jsonLiteralCountObj ch fs
  | [] => by
      rw [show encObj false [] = [] from rfl,
          show jsonLiteralCountObj ch [] = 0 from rfl]
      rfl
  | [(k, v)] => by
      have hco : (':' : Char) ≠ ch := by rcases hch with h | h | h <;> subst h <;> decide
      rw [show encObj false [(k, v)] = encString false k ++ ':' :: encJson false v from rfl,
          show jsonLiteralCountObj ch [(k, v)]
            = k.data.count ch + jsonLiteralCount ch v + 0 from rfl,
          List.count_append, List.count_cons, count_encString ch hch k,
          count_encJson ch hch v]
      simp [beq_iff_eq, hco, Ne.symm hco]
  | (k, v) :: f :: fs => by
      have hco : (':' : Char) ≠ ch := by rcases hch with h | h | h <;> subst h <;> decide
      have hcm : (',' : Char) ≠ ch := by rcases hch with h | h | h <;> subst h <;> decide
      rw [show encObj false ((k, v) :: f :: fs)
            = encString false k ++ ':' :: encJson false v ++ ',' :: encObj false (f :: fs)
            from rfl,
          show jsonLiteralCountObj ch ((k, v) :: f :: fs)
            = k.data.count ch + jsonLiteralCount ch v + jsonLiteralCountObj ch (f :: fs)
            from rfl,
          List.count_append, List.count_cons, List.count_append, List.count_cons,
          count_encString ch hch k, count_encJson ch hch v, count_encObj ch hch (f :: fs)]
      simp only [beq_iff_eq, if_neg hco, if_neg hcm, Ne.symm hco, Ne.symm hcm]
      omega
end

/-- C6: for every non-nil body whose content-type hint is not
form-urlencoded, the entity `newRequest` attaches is the JSON serialization
of the body produced with `SetEscapeHTML(false)`; consequently `<`, `>`,
`&` appear in the emitted payload exactly as many times as they occur
literally in the body (never lost to an escape), because with the flag off
each of these characters is emitted as itself — whereas with the flag on it
would be emitted as its six-character `\u00XX` escape. -/
theorem c6_json_body_not_html_escaped (c : Client)
    (resolve : String → Except GoErr String)
    (fetch : AccessGrantRequest → Except GoErr OIDCToken)
    (method path : String) (b : JVal) (h : RequestHeaders) (isAdminRequest : Bool)
    (req : HttpRequest)
    (hct : h.contentType ≠ formEncoded)
    (hok : c.newRequest resolve fetch method path (some b) h isAdminRequest = .ok req) :
    req.bodyEntity = some (String.mk (encJson false b) ++ "\n")
    ∧ ∀ ch, ch = '<' ∨ ch = '>' ∨ ch = '&' →
        (String.mk (encJson false b) ++ "\n").data.count ch = jsonLiteralCount ch b
        ∧ goEscChar false ch = [ch]
        ∧ goEscChar true ch = escU ch := by
  have hent : entityOf (some b) h = .ok (some (String.mk (encJson false b) ++ "\n")) := by
    unfold entityOf
    have hbe : (h.contentType == formEncoded) = false := by
      rw [beq_eq_false_iff_ne]
      exact hct
    rw [hbe]
    simp
  refine ⟨newRequest_ok_bodyEntity c resolve fetch method path (some b) h isAdminRequest
      req _ hent hok, ?_⟩
  intro ch hch
  refine ⟨?_, ?_, ?_⟩
  · have hnl : ('\n' : Char) ≠ ch := by rcases hch with hc | hc | hc <;> subst hc <;> decide
    rw [String.data_append,
        show (String.mk (encJson false b)).data = encJson false b from rfl,
        List.count_append, count_encJson ch hch b,
        show ("\n" : String).data = ['\n'] from rfl]
    simp [List.count_cons, beq_iff_eq, hnl, Ne.symm hnl]
  · rcases hch with hc | hc | hc <;> subst hc <;> decide
  · rcases hch with hc | hc | hc <;> subst hc <;> decide

/-- C6 witness: a body holding `x<y&z>w` is emitted with the three
characters literal (entity `\x7b"a":"x<y&z>w"\x7d`, count preserved), not
`u`-escaped. -/
theorem c6_witness :
    samplePublicClient.newRequest sampleResolve sampleFetch "POST" "p"
        (some (.jobj [("a", .jstr "x<y&z>w")])) sampleHeaders false
      = .ok { method := "POST", url := "http://kc/p",
              bodyEntity := some "\x7b\x22a\x22:\x22x<y&z>w\x22\x7d\n",
              header := [("Content-Type", "application/json")] }
    ∧ HttpRequest.bodyEntity
        { method := "POST", url := "http://kc/p",
          bodyEntity := some "\x7b\x22a\x22:\x22x<y&z>w\x22\x7d\n",
          header := [("Content-Type", "application/json")] }
      = some (String.mk (encJson false (.jobj [("a", .jstr "x<y&z>w")])) ++ "\n")
    ∧ (String.mk (encJson false (.jobj [("a", .jstr "x<y&z>w")])) ++ "\n").data.count '<'
      = jsonLiteralCount '<' (.jobj [("a", .jstr "x<y&z>w")])
    ∧ jsonLiteralCount '<' (.jobj [("a", .jstr "x<y&z>w")]) = 1 :=
  ⟨rfl,
   (c6_json_body_not_html_escaped samplePublicClient sampleResolve sampleFetch "POST" "p"
      (.jobj [("a", .jstr "x<y&z>w")]) sampleHeaders false
      { method := "POST", url := "http://kc/p",
        bodyEntity := some "\x7b\x22a\x22:\x22x<y&z>w\x22\x7d\n",
        header := [("Content-Type", "application/json")] }
      (by decide) rfl).1,
   ((c6_json_body_not_html_escaped samplePublicClient sampleResolve sampleFetch "POST" "p"
      (.jobj [("a", .jstr "x<y&z>w")]) sampleHeaders false
      { method := "POST", url := "http://kc/p",
        bodyEntity := some "\x7b\x22a\x22:\x22x<y&z>w\x22\x7d\n",
        header := [("Content-Type", "application/json")] }
      (by decide) rfl).2 '<' (Or.inl rfl)).1,
   rfl⟩
